import Mathlib

/-!
Verification of the ClaimDocAutomator document intake and claim-matching
pipeline, shallowly embedded from the Python sources file_processor.py and
monitor_directory.py.  Strings are modelled over ASCII characters; machine
details (MySQL transport, tesseract, watchdog threads) are abstracted into
explicit state (a registry snapshot, a file-system map) and parameters
(the OCR outcome, the measured file sizes, the timestamp string).
-/

namespace ClaimDoc

/-- ASCII lowercasing of a string, character by character; the model of the
Python str.lower method. -/
def strLower (s : String) : String := String.mk (s.toList.map Char.toLower)

/-- Word characters of the regex word-boundary class: alphanumerics and the
underscore.  Used by the claim matcher in ClaimProcessor._find_matching_claim,
whose pattern wraps the escaped claim number in word boundaries. -/
def isWordChar (c : Char) : Bool := c.isAlphanum || c == '_'

/-- Word-character test lifted to an optional character; characters outside
the string count as non-word, matching the regex boundary convention. -/
def isWordOpt : Option Char → Bool
  | some c => isWordChar c
  | none => false

/-- Whitespace characters recognised by the regex class backslash-s
(ASCII fragment). -/
def isPySpace (c : Char) : Bool :=
  c == ' ' || c == '\t' || c == '\n' || c == '\r' || c == '\x0b' || c == '\x0c'

/-- Characters allowed inside the body of a candidate claim token:
alphanumerics and hyphen. -/
def isTokChar (c : Char) : Bool := c.isAlphanum || c == '-'

/-- Optional separator characters between the anchor keyword and the token. -/
def isSepChar (c : Char) : Bool := c == ':' || c == '/' || c == '#' || c == '-'

/-- The capture group of the extraction pattern, evaluated at a position of the
lowercased text: one alphanumeric character followed by a run of token
characters, required to contain at least one digit.  The backtracking regex
consumes the entire maximal token run exactly when that run contains a digit,
and fails otherwise (a lone alphanumeric with an empty run never satisfies the
digit-bearing tail alternatives). -/
def captureToken : List Char → Option (List Char)
  | [] => none
  | c :: rest =>
    if c.isAlphanum then
      let run := rest.takeWhile isTokChar
      if run.any Char.isDigit then some (c :: run) else none
    else none

/-- The separator-and-token part of the extraction pattern: skip whitespace,
optionally consume one separator character followed by more whitespace, then
the capture group.  When the optional separator is present but the capture
fails, the fallback without the separator also fails, because a separator
character can never begin the capture group. -/
def afterSep (r : List Char) : Option (List Char) :=
  match r.dropWhile isPySpace with
  | [] => none
  | c :: rest =>
    if isSepChar c then captureToken (rest.dropWhile isPySpace)
    else captureToken (c :: rest)

/-- The literal anchor word of the extraction pattern. -/
def anchorChars : List Char := ['c', 'l', 'a', 'i', 'm']

/-- Boolean prefix test on character lists. -/
def lstartsWith (pre l : List Char) : Bool := l.take pre.length == pre

/-- One attempt of the extraction pattern of
ClaimProcessor._extract_potential_claim_number at a fixed start position.
The anchor alternation tries the bare keyword first and, when the remainder
fails, the keyword followed by mandatory whitespace and one of the literals
for number, id, or the hash sign; the three literals are mutually exclusive,
so the ordered alternation reduces to this case split. -/
def tryAnchor (cs : List Char) : Option (List Char) :=
  if lstartsWith anchorChars cs then
    let r := cs.drop 5
    match afterSep r with
    | some g => some g
    | none =>
      let sp := r.takeWhile isPySpace
      if sp == [] then none
      else
        let r2 := r.drop sp.length
        if lstartsWith ['n', 'u', 'm', 'b', 'e', 'r'] r2 then afterSep (r2.drop 6)
        else if lstartsWith ['i', 'd'] r2 then afterSep (r2.drop 2)
        else if lstartsWith ['#'] r2 then afterSep (r2.drop 1)
        else none
  else none

/-- Leftmost search of the extraction pattern, trying every start position in
reading order, as re.search does. -/
def searchClaimPattern : List Char → Option (List Char)
  | [] => none
  | c :: rest =>
    match tryAnchor (c :: rest) with
    | some g => some g
    | none => searchClaimPattern rest

/-- ClaimProcessor._extract_potential_claim_number: lowercase the text, search
for the keyword-anchored pattern, uppercase the first captured token and keep
it only when it contains a digit. -/
def extract_potential_claim_number (text : String) : Option String :=
  match searchClaimPattern (text.toList.map Char.toLower) with
  | some g =>
    if (g.map Char.toUpper).any Char.isDigit then some (String.mk (g.map Char.toUpper))
    else none
  | none => none

/-- Case-insensitive literal match of a pattern against the front of the text,
returning the last matched text character together with the remaining text.
This models the escaped claim number inside the matcher pattern under the
IGNORECASE flag. -/
def stripPrefixCI : List Char → List Char → Option Char → Option (Option Char × List Char)
  | [], text, lastc => some (lastc, text)
  | _ :: _, [], _ => none
  | p :: ps, c :: cs, _ =>
    if p.toLower == c.toLower then stripPrefixCI ps cs (some c) else none

/-- Word-bounded case-insensitive match of the pattern at the current
position, given the character immediately before the position. -/
def wordMatchHere (pat : List Char) (prev : Option Char) (text : List Char) : Bool :=
  (isWordOpt prev != isWordOpt text.head?) &&
    match stripPrefixCI pat text prev with
    | some (lastc, rest) => isWordOpt lastc != isWordOpt rest.head?
    | none => false

/-- Search for a word-bounded case-insensitive occurrence of the pattern
anywhere in the text, as re.search does for the matcher pattern. -/
def wordSearch (pat : List Char) : Option Char → List Char → Bool
  | prev, [] => wordMatchHere pat prev []
  | prev, c :: rest => wordMatchHere pat prev (c :: rest) || wordSearch pat (some c) rest

/-- ClaimProcessor._find_matching_claim: return the first registry row whose
claim number occurs in the text as a word-bounded case-insensitive match. -/
def find_matching_claim (text : String) (claims : List (String × Option String)) :
    Option (String × Option String) :=
  claims.find? (fun r => wordSearch r.1.toList none text.toList)

/-- Exception values of the Python pipeline: ValueError (validation and the
unsupported-format failure), the OCRError class declared in
monitor_directory.py, FileNotFoundError, TimeoutError from the stability
wait, and any other exception. -/
inductive PyExc where
  | valueError (msg : String)
  | ocrError (msg : String)
  | fileNotFound (msg : String)
  | timeoutError (msg : String)
  | otherError (msg : String)
deriving DecidableEq

/-- Message carried by an exception value. -/
def PyExc.msg : PyExc → String
  | .valueError m => m
  | .ocrError m => m
  | .fileNotFound m => m
  | .timeoutError m => m
  | .otherError m => m

/-- One row of the ErrorFiles table, as inserted by
DatabaseManager.log_error_file. -/
structure ErrorRow where
  filePath : String
  claimNumber : Option String
  errorMessage : String
  isUnmatchedClaim : Bool
deriving DecidableEq

/-- Registry state: the Claims table as a list of claim number and nullable
directory path, and the append-only ErrorFiles table. -/
structure DB where
  claims : List (String × Option String)
  errorFiles : List ErrorRow
deriving DecidableEq

/-- DatabaseManager.update_claim_directory: set DirectoryPath on every Claims
row whose ClaimNumber equals the given one. -/
def update_claim_directory (db : DB) (cn dir : String) : DB :=
  { db with claims := db.claims.map (fun r => if r.1 = cn then (r.1, some dir) else r) }

/-- DatabaseManager.log_error_file: when a claim number is supplied and
non-empty, mark the row unmatched exactly when no Claims row carries that
number; always append one ErrorFiles row. -/
def log_error_file (db : DB) (fp msg : String) (cn : Option String) : DB :=
  let isUnmatched :=
    match cn with
    | some c => if c = "" then false else db.claims.countP (fun r => r.1 == c) == 0
    | none => false
  { db with errorFiles := db.errorFiles ++ [⟨fp, cn, msg, isUnmatched⟩] }

/-- File-system state: the existing regular files with their sizes, keyed by
rendered path. -/
abbrev FS := List (String × Nat)

/-- Size of the file at a path, or none when no such file exists. -/
def fsSize (fs : FS) (p : String) : Option Nat :=
  (fs.find? (fun e => e.1 == p)).map (fun e => e.2)

/-- shutil.move: relocate an existing file to the destination path; a missing
source raises FileNotFoundError. -/
def fsMove (fs : FS) (src dst : String) : Except PyExc FS :=
  match fsSize fs src with
  | some n => .ok ((dst, n) :: fs.filter (fun e => !(e.1 == src)))
  | none => .error (.fileNotFound ("Source file " ++ src ++ " does not exist"))

/-- Path join with a forward slash, the rendering of Path division. -/
def pathJoin (d n : String) : String := d ++ "/" ++ n

/-- An incoming file: parent directory, stem and extension (the extension
carries its leading dot, as Path.suffix does). -/
structure PFile where
  parent : String
  stem : String
  ext : String
deriving DecidableEq

/-- Path.name: stem followed by extension. -/
def PFile.name (p : PFile) : String := p.stem ++ p.ext

/-- Rendered absolute path of the file. -/
def PFile.render (p : PFile) : String := pathJoin p.parent p.name

/-- Directory configuration: the processed root of file_processor.py and the
failed-files root of monitor_directory.py. -/
structure DirConfig where
  processedDir : String
  failedDir : String
deriving DecidableEq

/-- Combined mutable state threaded through one processing attempt. -/
structure SysState where
  db : DB
  fs : FS
deriving DecidableEq

/-- Directory lazily assigned to a matched claim without one:
processed root extended by the claim number. -/
def claimDirPath (cfg : DirConfig) (cn : String) : String :=
  pathJoin cfg.processedDir cn

/-- Python truthiness of the nullable directory column: None and the empty
string are falsy. -/
def dirFalsy : Option String → Bool
  | none => true
  | some d => d = ""

/-- ClaimProcessor._handle_matched_claim: assign the directory when the row
has none, re-check that the source still exists, then move.  Any failure is
logged through log_error_file with the matched claim number and re-raised, so
the result carries both the exception and the state after the inner logging. -/
def handle_matched_claim (cfg : DirConfig) (st : SysState) (p : PFile)
    (cn : String) (dir0 : Option String) : Except (PyExc × SysState) SysState :=
  let db1 := if dirFalsy dir0 then update_claim_directory st.db cn (claimDirPath cfg cn) else st.db
  match fsSize st.fs p.render with
  | none =>
    .error (.fileNotFound ("Source file " ++ p.render ++ " does not exist"),
      ⟨log_error_file db1 p.render
        ("Error handling matched claim: " ++ ("Source file " ++ p.render ++ " does not exist"))
        (some cn), st.fs⟩)
  | some n =>
    let dir := if dirFalsy dir0 then claimDirPath cfg cn else dir0.getD ""
    .ok ⟨db1, (pathJoin dir p.name, n) :: st.fs.filter (fun x => !(x.1 == p.render))⟩

/-- ClaimProcessor.process_file: extract text, snapshot the registry, extract
a candidate identifier, match against the registry, and route.  The trailing
catch-all handler logs one ErrorFiles row with the best-known claim number and
returns normally, so no exception ever escapes this function. -/
def process_file (ocr : PFile → Except PyExc String) (cfg : DirConfig)
    (st : SysState) (p : PFile) : SysState :=
  match ocr p with
  | .error e => { st with db := log_error_file st.db p.render e.msg none }
  | .ok text =>
    match find_matching_claim text st.db.claims with
    | some (cn, dir0) =>
      match handle_matched_claim cfg st p cn dir0 with
      | .ok st1 => st1
      | .error (e, st1) =>
        { st1 with db := log_error_file st1.db p.render e.msg (some cn) }
    | none =>
      match extract_potential_claim_number text with
      | some cand =>
        let dest := pathJoin (pathJoin cfg.processedDir cand) p.name
        match fsMove st.fs p.render dest with
        | .ok fs1 =>
          let msg := "Claim number " ++ cand ++ " found in file but not in database"
          ⟨log_error_file st.db dest msg (some cand), fs1⟩
        | .error e =>
          let attributed := if cand = "" then none else some cand
          { st with db := log_error_file st.db p.render e.msg attributed }
      | none =>
        let dest := pathJoin (pathJoin cfg.processedDir "no_claim") p.name
        match fsMove st.fs p.render dest with
        | .ok fs1 => ⟨log_error_file st.db dest "No claim number found in file" none, fs1⟩
        | .error e => { st with db := log_error_file st.db p.render e.msg none }

/-- Extensions accepted by DocumentHandler._validate_file. -/
def accepted_extensions : List String :=
  [".pdf", ".tiff", ".tif", ".jpg", ".jpeg", ".png"]

/-- DocumentHandler._validate_file: the file must exist, be non-empty and
carry an accepted extension; every internal ValueError is caught and turned
into a false result. -/
def validate_file (fs : FS) (p : PFile) : Bool :=
  match fsSize fs p.render with
  | none => false
  | some n => if n = 0 then false else accepted_extensions.contains (strLower p.ext)

/-- Quarantine destination of DocumentHandler.move_to_failed: the error-kind
bucket under the failed root, with the timestamp inserted between stem and
extension. -/
def failedBucketPath (cfg : DirConfig) (etype : String) (p : PFile) (ts : String) : String :=
  pathJoin (pathJoin cfg.failedDir (etype ++ "_failed")) (p.stem ++ "_" ++ ts ++ p.ext)

/-- The body of the try block of DocumentHandler.move_to_failed: the move into
the quarantine bucket, which can itself fail. -/
def move_to_failed_attempt (cfg : DirConfig) (fs : FS) (p : PFile)
    (etype ts : String) : Except PyExc FS :=
  fsMove fs p.render (failedBucketPath cfg etype p ts)

/-- DocumentHandler.move_to_failed: attempt the quarantine move and swallow
any failure, leaving the file system unchanged in that case. -/
def move_to_failed (cfg : DirConfig) (fs : FS) (p : PFile) (etype ts : String) : FS :=
  match move_to_failed_attempt cfg fs p etype ts with
  | .ok fs1 => fs1
  | .error _ => fs

/-- Quarantine bucket chosen by the handlers of
DocumentHandler.process_single_file: ValueError goes to validation, OCRError
to ocr, everything else to processing. -/
def exc_bucket : PyExc → String
  | .valueError _ => "validation"
  | .ocrError _ => "ocr"
  | _ => "processing"

/-- DocumentHandler._wait_for_file_ready, over the file size sampled at each
whole second: at loop entry after t elapsed seconds, raise TimeoutError once
t exceeds the timeout, otherwise compare the sizes at t and t+1 (one
one-second sleep apart) and return at time t+1 when they agree, else iterate. -/
def wait_for_file_ready (sizes : Nat → Nat) (timeout : Nat) (t : Nat) : Except PyExc Nat :=
  if timeout < t then .error (.timeoutError "Timeout waiting for file to be ready")
  else if sizes t = sizes (t + 1) then .ok (t + 1)
  else wait_for_file_ready sizes timeout (t + 1)
termination_by timeout + 1 - t
decreasing_by simp_wf; omega

/-- DocumentHandler.process_single_file: wait for stability (its outcome is
the ready parameter), validate, then delegate to process_file; a ValueError
routes the file to the validation bucket, an OCRError to the ocr bucket and
any other exception to the processing bucket.  In this model process_file and
the registry never raise, so the only exceptions are the ready outcome and
the validation ValueError. -/
def process_single_file (ready : Except PyExc Unit) (ocr : PFile → Except PyExc String)
    (cfg : DirConfig) (ts : String) (st : SysState) (p : PFile) : SysState :=
  match ready with
  | .error e => { st with fs := move_to_failed cfg st.fs p (exc_bucket e) ts }
  | .ok _ =>
    if validate_file st.fs p then process_file ocr cfg st p
    else { st with fs := move_to_failed cfg st.fs p "validation" ts }

/-- Dispatch outcome of OCRProcessor.extract_text_from_file. -/
inductive ExtractRoute where
  | viaPdf
  | viaImage
  | unsupported
deriving DecidableEq

/-- Extension dispatch of OCRProcessor.extract_text_from_file: a pdf suffix is
rendered page-by-page, the three raster-image suffixes are read directly, and
every other suffix raises the unsupported-file-type ValueError. -/
def extract_text_route (ext : String) : ExtractRoute :=
  if strLower ext == ".pdf" then .viaPdf
  else if [".png", ".jpg", ".jpeg"].contains (strLower ext) then .viaImage
  else .unsupported

/-- Boolean substring test on character lists. -/
def containsSub (pat : List Char) : List Char → Bool
  | [] => lstartsWith pat []
  | c :: rest => lstartsWith pat (c :: rest) || containsSub pat rest

/-- Alphanumeric test lifted to an optional character. -/
def isAlnumOpt : Option Char → Bool
  | some c => c.isAlphanum
  | none => false

/-- Occurrence predicate written from the specification words of claim C4: the
pattern occurs in the text as a case-insensitive match whose two neighbouring
characters (when they exist) are not alphanumeric. -/
def spec_token_occurs (pat text : String) : Bool :=
  (List.range (text.toList.length + 1)).any (fun i =>
    ((text.toList.drop i).take pat.toList.length).map Char.toLower
        == pat.toList.map Char.toLower
    && (i == 0 || !isAlnumOpt (text.toList.get? (i - 1)))
    && !isAlnumOpt (text.toList.get? (i + pat.toList.length)))

/-- Last character of a list, or a supplied fallback for the empty list; used
to track the character preceding a regex position. -/
def lastOr (l : List Char) (prev : Option Char) : Option Char :=
  match l.getLast? with
  | some c => some c
  | none => prev

/-- The anchor phrase of the scenario of claim C5, lowercased. -/
def phraseAB : List Char :=
  ['c', 'l', 'a', 'i', 'm', ' ', '#', ':', ' ', 'a', 'b', '1', '2', '3']

theorem countP_update_claim (db : DB) (cn d c : String) :
    (update_claim_directory db cn d).claims.countP (fun r => r.1 == c)
      = db.claims.countP (fun r => r.1 == c) := by
  show (db.claims.map _).countP _ = _
  rw [List.countP_map]
  apply List.countP_congr
  intro r _
  by_cases h : r.1 = cn <;> simp [h]

theorem errorFiles_update_claim (db : DB) (cn d : String) :
    (update_claim_directory db cn d).errorFiles = db.errorFiles := rfl

theorem log_error_file_none_eq (db : DB) (fp msg : String) :
    log_error_file db fp msg none
      = { db with errorFiles := db.errorFiles ++ [⟨fp, none, msg, false⟩] } := rfl

theorem log_error_file_known (db : DB) (fp msg cn : String)
    (h : db.claims.countP (fun r => r.1 == cn) ≠ 0) :
    log_error_file db fp msg (some cn)
      = { db with errorFiles := db.errorFiles ++ [⟨fp, some cn, msg, false⟩] } := by
  unfold log_error_file
  by_cases hcn : cn = ""
  · simp [hcn]
  · have hbe : (db.claims.countP (fun r => r.1 == cn) == 0) = false := by
      simp [h]
    simp [hcn, hbe]

theorem log_error_file_unknown (db : DB) (fp msg cn : String) (hne : cn ≠ "")
    (h : db.claims.countP (fun r => r.1 == cn) = 0) :
    log_error_file db fp msg (some cn)
      = { db with errorFiles := db.errorFiles ++ [⟨fp, some cn, msg, true⟩] } := by
  unfold log_error_file
  simp [hne, h]

/-- Claim C1.  The claim states that an OCR extraction error propagates out of
process_file to process_single_file, which quarantines the file under
ocr_failed with a timestamped name, with no claim-directory mutation.  The
code instead swallows the exception inside ClaimProcessor.process_file, whose
catch-all handler writes one ErrorFiles row and returns normally: on a
validated file whose OCR raises, the file stays at its original path, nothing
arrives in the ocr quarantine bucket, and the Claims table (correctly) is not
mutated.  This evaluation exhibits the divergence at a concrete input. -/
theorem C1_ocr_failure_swallowed_not_quarantined :
    process_single_file (.ok ()) (fun _ => .error (.otherError "ocr failed"))
        ⟨"processed", "failedroot"⟩ "20250101_000000"
        ⟨⟨[("AB1", some "d")], []⟩, [("in/scan.pdf", 5)]⟩ ⟨"in", "scan", ".pdf"⟩
      = ⟨⟨[("AB1", some "d")], [⟨"in/scan.pdf", none, "ocr failed", false⟩]⟩,
         [("in/scan.pdf", 5)]⟩
    ∧ fsSize [("in/scan.pdf", 5)]
        (failedBucketPath ⟨"processed", "failedroot"⟩ "ocr" ⟨"in", "scan", ".pdf"⟩
          "20250101_000000") = none := by
  decide

/-- Claim C2, counterexample.  An empty file fails validation and is moved to
the validation quarantine bucket with a timestamped name and the Claims table
is untouched, but the ErrorFiles table stays empty: the claimed single
ErrorLogEntry with is_unmatched_claim false is never written, because
DocumentHandler.process_single_file routes validation failures through
move_to_failed only, which performs no registry write. -/
theorem C2_counterexample_empty_file_no_audit_row :
    process_single_file (.ok ()) (fun _ => .ok "text") ⟨"processed", "failedroot"⟩
        "20250101_000000" ⟨⟨[("AB1", some "d")], []⟩, [("in/empty.pdf", 0)]⟩
        ⟨"in", "empty", ".pdf"⟩
      = ⟨⟨[("AB1", some "d")], []⟩,
         [("failedroot/validation_failed/empty_20250101_000000.pdf", 0)]⟩ := by
  decide

/-- Claim C2, amended.  For every existing file that fails validation because
it is empty or carries an unaccepted extension, processing raises the
validation ValueError and the file is moved to the validation_failed bucket
under a timestamp-suffixed name; the registry is not touched at all: the
Claims table is unchanged and no ErrorFiles row is written. -/
theorem C2_validation_quarantine_no_registry_write (cfg : DirConfig) (ts : String)
    (st : SysState) (p : PFile) (ocr : PFile → Except PyExc String) (n : Nat)
    (hfs : fsSize st.fs p.render = some n)
    (hbad : n = 0 ∨ accepted_extensions.contains (strLower p.ext) = false) :
    process_single_file (.ok ()) ocr cfg ts st p
      = ⟨st.db, (failedBucketPath cfg "validation" p ts, n)
          :: st.fs.filter (fun e => !(e.1 == p.render))⟩ := by
  have hv : validate_file st.fs p = false := by
    unfold validate_file
    rw [hfs]
    show (if n = 0 then false else accepted_extensions.contains (strLower p.ext)) = false
    rcases hbad with h | h
    · rw [if_pos h]
    · by_cases h0 : n = 0
      · rw [if_pos h0]
      · rw [if_neg h0, h]
  unfold process_single_file
  rw [hv]
  simp [move_to_failed, move_to_failed_attempt, fsMove, hfs]

/-- Witness for the amended claim C2 at a concrete empty file. -/
theorem C2_validation_quarantine_no_registry_write_witness :
    fsSize [("in/empty.pdf", 0)] (PFile.render ⟨"in", "empty", ".pdf"⟩) = some 0
    ∧ process_single_file (.ok ()) (fun _ => .ok "text") ⟨"processed", "failedroot"⟩
        "20250101_000000" ⟨⟨[], []⟩, [("in/empty.pdf", 0)]⟩ ⟨"in", "empty", ".pdf"⟩
      = ⟨⟨[], []⟩, [("failedroot/validation_failed/empty_20250101_000000.pdf", 0)]⟩ := by
  refine ⟨by decide, ?_⟩
  have h := C2_validation_quarantine_no_registry_write ⟨"processed", "failedroot"⟩
    "20250101_000000" ⟨⟨[], []⟩, [("in/empty.pdf", 0)]⟩ ⟨"in", "empty", ".pdf"⟩
    (fun _ => .ok "text") 0 (by decide) (Or.inl rfl)
  exact h.trans (by decide)

/-- Claim C3, counterexample.  A failing attempt does not always insert
exactly one ErrorFiles row: when the matched-claim handler fails because the
source file vanished, ClaimProcessor._handle_matched_claim logs the failure
and re-raises, and the catch-all handler of ClaimProcessor.process_file logs
it a second time, so one attempt inserts two rows. -/
theorem C3_counterexample_double_logging :
    (process_file (fun _ => .ok "ref ab1 doc") ⟨"processed", "failedroot"⟩
        ⟨⟨[("AB1", none)], []⟩, []⟩ ⟨"in", "f", ".pdf"⟩).db.errorFiles
      = [⟨"in/f.pdf", some "AB1",
          "Error handling matched claim: Source file in/f.pdf does not exist", false⟩,
         ⟨"in/f.pdf", some "AB1", "Source file in/f.pdf does not exist", false⟩] := by
  decide

/-- Claim C3, amended.  When the text matches a registry claim and the source
file vanished before the move, the attempt records the failure twice, not
once: one row from the inner handler of _handle_matched_claim and one from
the catch-all handler of process_file, both attributed to the matched claim
and not flagged unmatched, while the file system is unchanged.  An OCR
extraction failure, by contrast, inserts exactly one row. -/
theorem handle_matched_claim_gone_parts (cfg : DirConfig) (st : SysState)
    (p : PFile) (cn : String) (dir0 : Option String)
    (hgone : fsSize st.fs p.render = none)
    (hcount : st.db.claims.countP (fun r => r.1 == cn) ≠ 0) :
    ∃ cl, handle_matched_claim cfg st p cn dir0
        = .error (.fileNotFound ("Source file " ++ p.render ++ " does not exist"),
            ⟨⟨cl, st.db.errorFiles
                ++ [⟨p.render, some cn,
                     "Error handling matched claim: "
                       ++ ("Source file " ++ p.render ++ " does not exist"), false⟩]⟩,
             st.fs⟩)
      ∧ cl.countP (fun r => r.1 == cn) ≠ 0 := by
  cases hd : dirFalsy dir0 with
  | false =>
    refine ⟨st.db.claims, ?_, hcount⟩
    simp only [handle_matched_claim, hd, Bool.false_eq_true, if_false, hgone]
    rw [log_error_file_known _ _ _ _ hcount]
  | true =>
    refine ⟨(update_claim_directory st.db cn (claimDirPath cfg cn)).claims, ?_, ?_⟩
    · simp only [handle_matched_claim, hd, if_true, hgone]
      rw [log_error_file_known _ _ _ _ (by rw [countP_update_claim]; exact hcount)]
      rw [errorFiles_update_claim]
    · rw [countP_update_claim]; exact hcount

/-- Claim C3, amended.  When the text matches a registry claim and the source
file vanished before the move, the attempt records the failure twice, not
once: one row from the inner handler of _handle_matched_claim and one from
the catch-all handler of process_file, both attributed to the matched claim
and not flagged unmatched, while the file system is unchanged.  An OCR
extraction failure, by contrast, inserts exactly one row. -/
theorem C3_missing_source_failure_logging (cfg : DirConfig) (st : SysState)
    (p : PFile) (text cn : String) (dir0 : Option String)
    (hmatch : find_matching_claim text st.db.claims = some (cn, dir0))
    (hgone : fsSize st.fs p.render = none) :
    ((process_file (fun _ => .ok text) cfg st p).db.errorFiles
        = st.db.errorFiles
          ++ [⟨p.render, some cn,
               "Error handling matched claim: "
                 ++ ("Source file " ++ p.render ++ " does not exist"), false⟩,
              ⟨p.render, some cn,
               "Source file " ++ p.render ++ " does not exist", false⟩]
      ∧ (process_file (fun _ => .ok text) cfg st p).fs = st.fs)
    ∧ ∀ e, (process_file (fun _ => .error e) cfg st p).db.errorFiles
        = st.db.errorFiles ++ [⟨p.render, none, e.msg, false⟩] := by
  have hmem : (cn, dir0) ∈ st.db.claims := by
    have h := hmatch
    unfold find_matching_claim at h
    exact List.mem_of_find?_eq_some h
  have hcount : st.db.claims.countP (fun r => r.1 == cn) ≠ 0 := by
    intro h0
    rw [List.countP_eq_zero] at h0
    exact absurd (h0 _ hmem) (by simp)
  obtain ⟨cl, heq, hcl⟩ := handle_matched_claim_gone_parts cfg st p cn dir0 hgone hcount
  constructor
  · simp only [process_file, hmatch, heq, PyExc.msg]
    rw [log_error_file_known _ _ _ _ hcl]
    exact ⟨by simp, trivial⟩
  · intro e
    simp only [process_file]
    rfl

/-- Witness for the amended claim C3 at a concrete matched claim whose source
file vanished. -/
theorem C3_missing_source_failure_logging_witness :
    find_matching_claim "ref ab1 doc" [("AB1", none)] = some ("AB1", none)
    ∧ fsSize ([] : FS) (PFile.render ⟨"in", "f", ".pdf"⟩) = none
    ∧ (process_file (fun _ => .ok "ref ab1 doc") ⟨"processed", "failedroot"⟩
        ⟨⟨[("AB1", none)], []⟩, []⟩ ⟨"in", "f", ".pdf"⟩).db.errorFiles.length = 2 := by
  refine ⟨by decide, by decide, ?_⟩
  have h := (C3_missing_source_failure_logging ⟨"processed", "failedroot"⟩
    ⟨⟨[("AB1", none)], []⟩, []⟩ ⟨"in", "f", ".pdf"⟩ "ref ab1 doc" "AB1" none
    (by decide) (by decide)).1.1
  rw [h]
  decide

/-- Claim C7, counterexample.  The claim concludes is_unmatched_claim true
from the hypotheses that the text contains the phrase, the candidate XY9 is
extracted, and no registry identifier matches the text.  Those hypotheses
hold here, because XY9 sits in the registry yet does not match the text (the
occurrence xy9 is followed by an underscore, a regex word character), but
log_error_file then finds XY9 in the Claims table and records the row with
is_unmatched_claim false. -/
theorem C7_counterexample_registry_candidate :
    containsSub (String.toList "claim id: xy9")
        ((String.toList "claim id: xy9_x").map Char.toLower) = true
    ∧ extract_potential_claim_number "claim id: xy9_x" = some "XY9"
    ∧ find_matching_claim "claim id: xy9_x" [("XY9", some "d")] = none
    ∧ (process_file (fun _ => .ok "claim id: xy9_x") ⟨"processed", "failedroot"⟩
        ⟨⟨[("XY9", some "d")], []⟩, [("in/f.pdf", 7)]⟩ ⟨"in", "f", ".pdf"⟩).db.errorFiles
      = [⟨"processed/XY9/f.pdf", some "XY9",
          "Claim number XY9 found in file but not in database", false⟩] := by
  decide

/-- Claim C7, amended.  When the candidate XY9 is extracted from the text, no
registry identifier matches the text, and XY9 is moreover absent from the
registry, process_file moves the file to the XY9 directory under the
processed root and records exactly one ErrorFiles row carrying claim number
XY9 with is_unmatched_claim true. -/
theorem C7_unmatched_candidate_routing (cfg : DirConfig) (st : SysState)
    (p : PFile) (text : String) (n : Nat)
    (hext : extract_potential_claim_number text = some "XY9")
    (hmatch : find_matching_claim text st.db.claims = none)
    (habs : st.db.claims.countP (fun r => r.1 == "XY9") = 0)
    (hfs : fsSize st.fs p.render = some n) :
    process_file (fun _ => .ok text) cfg st p
      = ⟨{ st.db with errorFiles := st.db.errorFiles
            ++ [⟨pathJoin (pathJoin cfg.processedDir "XY9") p.name, some "XY9",
                 "Claim number XY9 found in file but not in database", true⟩] },
         (pathJoin (pathJoin cfg.processedDir "XY9") p.name, n)
           :: st.fs.filter (fun e => !(e.1 == p.render))⟩ := by
  simp only [process_file, hmatch, hext, fsMove, hfs]
  rw [log_error_file_unknown _ _ _ _ (by decide) habs]
  rfl

/-- Witness for the amended claim C7 at a concrete input with an empty
registry. -/
theorem C7_unmatched_candidate_routing_witness :
    extract_potential_claim_number "claim id: xy9" = some "XY9"
    ∧ find_matching_claim "claim id: xy9" [("AB1", some "d")] = none
    ∧ process_file (fun _ => .ok "claim id: xy9") ⟨"processed", "failedroot"⟩
        ⟨⟨[("AB1", some "d")], []⟩, [("in/f.pdf", 7)]⟩ ⟨"in", "f", ".pdf"⟩
      = ⟨⟨[("AB1", some "d")],
          [⟨"processed/XY9/f.pdf", some "XY9",
            "Claim number XY9 found in file but not in database", true⟩]⟩,
         [("processed/XY9/f.pdf", 7)]⟩ := by
  refine ⟨by decide, by decide, ?_⟩
  have h := C7_unmatched_candidate_routing ⟨"processed", "failedroot"⟩
    ⟨⟨[("AB1", some "d")], []⟩, [("in/f.pdf", 7)]⟩ ⟨"in", "f", ".pdf"⟩
    "claim id: xy9" 7 (by decide) (by decide) (by decide) (by decide)
  exact h.trans (by decide)

/-- Claim C8.  The validation step accepts the tif and tiff extensions, but
OCRProcessor.extract_text_from_file dispatches only pdf, png, jpg and jpeg
and raises its unsupported-file-type ValueError for tif and tiff, so a file
the pipeline admits can never be extracted: the code contradicts its own
validation list, confirming the divergence the claim denies. -/
theorem C8_tiff_validated_but_unsupported :
    extract_text_route ".tif" = .unsupported
    ∧ extract_text_route ".tiff" = .unsupported
    ∧ accepted_extensions.contains ".tif" = true
    ∧ accepted_extensions.contains ".tiff" = true
    ∧ extract_text_route ".pdf" = .viaPdf
    ∧ extract_text_route ".png" = .viaImage
    ∧ extract_text_route ".jpg" = .viaImage
    ∧ extract_text_route ".jpeg" = .viaImage
    ∧ extract_text_route ".TIF" = .unsupported := by
  decide

theorem lastOr_cons (c : Char) (l : List Char) (prev : Option Char) :
    lastOr (c :: l) prev = lastOr l (some c) := by
  cases l with
  | nil => rfl
  | cons d l2 =>
    unfold lastOr
    rw [List.getLast?_cons_cons]
    cases hg : (d :: l2).getLast? with
    | some x => rfl
    | none => exact absurd (List.getLast?_eq_none_iff.mp hg) (by simp)

theorem lastOr_none (l : List Char) : lastOr l none = l.getLast? := by
  unfold lastOr
  cases l.getLast? <;> rfl

theorem lastOr_ne_nil (l : List Char) (prev : Option Char) (h : l ≠ []) :
    lastOr l prev = l.getLast? := by
  unfold lastOr
  cases hg : l.getLast? with
  | some c => rfl
  | none => exact absurd (List.getLast?_eq_none_iff.mp hg) h

theorem strToList_ne_nil (s : String) (h : s ≠ "") : s.toList ≠ [] := by
  intro h0
  apply h
  cases s with
  | mk data =>
    have hd : data = [] := h0
    rw [hd]

theorem stripPrefixCI_cons (p : Char) (ps : List Char) (c : Char) (cs : List Char)
    (prev : Option Char) :
    stripPrefixCI (p :: ps) (c :: cs) prev
      = if p.toLower == c.toLower then stripPrefixCI ps cs (some c) else none := rfl

theorem stripPrefixCI_eq_some_iff (pat : List Char) :
    ∀ (text : List Char) (prev lastc : Option Char) (rest : List Char),
      stripPrefixCI pat text prev = some (lastc, rest) ↔
        ∃ mid, text = mid ++ rest
          ∧ mid.map Char.toLower = pat.map Char.toLower
          ∧ lastc = lastOr mid prev := by
  induction pat with
  | nil =>
    intro text prev lastc rest
    constructor
    · intro h
      have h2 : prev = lastc ∧ text = rest := by
        have h3 := Option.some.inj h
        exact ⟨congrArg Prod.fst h3, congrArg Prod.snd h3⟩
      exact ⟨[], by simpa using h2.2, rfl, h2.1.symm⟩
    · rintro ⟨mid, h1, h2, h3⟩
      have hm : mid = [] := by simpa using h2
      rw [hm] at h1 h3
      simp only [List.nil_append] at h1
      rw [h1, h3]
      rfl
  | cons p ps ih =>
    intro text prev lastc rest
    cases text with
    | nil =>
      constructor
      · intro h
        exact absurd h (by simp [stripPrefixCI])
      · rintro ⟨mid, h1, h2, h3⟩
        have hm : mid = [] := by
          cases mid with
          | nil => rfl
          | cons a l => exact absurd h1.symm (by simp)
        rw [hm] at h2
        exact absurd h2.symm (by simp)
    | cons c cs =>
      by_cases hb : Char.toLower p = Char.toLower c
      · have hbeq : (p.toLower == c.toLower) = true := by simpa using hb
        rw [stripPrefixCI_cons, if_pos hbeq]
        constructor
        · intro h
          obtain ⟨mid1, g1, g2, g3⟩ := (ih cs (some c) lastc rest).mp h
          refine ⟨c :: mid1, by rw [g1]; rfl, ?_, ?_⟩
          · simp only [List.map_cons, g2, hb]
          · rw [lastOr_cons]; exact g3
        · rintro ⟨mid, h1, h2, h3⟩
          cases mid with
          | nil => exact absurd h2.symm (by simp)
          | cons m0 mid1 =>
            have h1s : c = m0 ∧ cs = mid1 ++ rest := by
              have h4 := h1
              simp only [List.cons_append, List.cons.injEq] at h4
              exact h4
            have h2s : Char.toLower m0 = Char.toLower p
                ∧ mid1.map Char.toLower = ps.map Char.toLower := by
              have h4 := h2
              simp only [List.map_cons, List.cons.injEq] at h4
              exact h4
            apply (ih cs (some c) lastc rest).mpr
            refine ⟨mid1, h1s.2, h2s.2, ?_⟩
            rw [h3, h1s.1, lastOr_cons]
      · have hbeq : (p.toLower == c.toLower) = false := by
          simp only [beq_eq_false_iff_ne, ne_eq]
          exact hb
        rw [stripPrefixCI_cons, if_neg (by simp [hbeq])]
        constructor
        · intro h
          exact absurd h (by simp)
        · rintro ⟨mid, h1, h2, h3⟩
          cases mid with
          | nil => exact absurd h2.symm (by simp)
          | cons m0 mid1 =>
            have h1s : c = m0 ∧ cs = mid1 ++ rest := by
              have h4 := h1
              simp only [List.cons_append, List.cons.injEq] at h4
              exact h4
            have h2s : Char.toLower m0 = Char.toLower p
                ∧ mid1.map Char.toLower = ps.map Char.toLower := by
              have h4 := h2
              simp only [List.map_cons, List.cons.injEq] at h4
              exact h4
            rw [← h1s.1] at h2s
            exact absurd h2s.1.symm hb

theorem wordMatchHere_iff (pat : List Char) (hne : pat ≠ []) (prev : Option Char)
    (text : List Char) :
    wordMatchHere pat prev text = true ↔
      ∃ mid rest, text = mid ++ rest
        ∧ mid.map Char.toLower = pat.map Char.toLower
        ∧ isWordOpt prev ≠ isWordOpt mid.head?
        ∧ isWordOpt (lastOr mid prev) ≠ isWordOpt rest.head? := by
  unfold wordMatchHere
  cases hs : stripPrefixCI pat text prev with
  | none =>
    constructor
    · intro h
      rw [Bool.and_eq_true] at h
      exact absurd h.2 (by simp)
    · rintro ⟨mid, rest, h1, h2, h3, h4⟩
      have h5 : stripPrefixCI pat text prev = some (lastOr mid prev, rest) :=
        (stripPrefixCI_eq_some_iff pat text prev _ rest).mpr ⟨mid, h1, h2, rfl⟩
      rw [hs] at h5
      exact absurd h5 (by simp)
  | some pr =>
    obtain ⟨lastc, rest0⟩ := pr
    obtain ⟨mid, h1, h2, h3⟩ := (stripPrefixCI_eq_some_iff pat text prev lastc rest0).mp hs
    have hmidne : mid ≠ [] := by
      intro h0
      rw [h0] at h2
      exact hne (by simpa using h2.symm)
    have hhead : text.head? = mid.head? := by
      rw [h1]
      cases mid with
      | nil => exact absurd rfl hmidne
      | cons a l => rfl
    simp only [Bool.and_eq_true, bne_iff_ne, ne_eq]
    constructor
    · rintro ⟨hb1, hb2⟩
      refine ⟨mid, rest0, h1, h2, ?_, ?_⟩
      · rw [← hhead]; exact hb1
      · rw [← h3]; exact hb2
    · rintro ⟨mid2, rest2, g1, g2, g3, g4⟩
      have hs2 : stripPrefixCI pat text prev = some (lastOr mid2 prev, rest2) :=
        (stripPrefixCI_eq_some_iff pat text prev _ rest2).mpr ⟨mid2, g1, g2, rfl⟩
      rw [hs] at hs2
      have hp := Option.some.inj hs2
      have he1 : lastc = lastOr mid2 prev := congrArg Prod.fst hp
      have he2 : rest0 = rest2 := congrArg Prod.snd hp
      have hmid2ne : mid2 ≠ [] := by
        intro h0
        rw [h0] at g2
        exact hne (by simpa using g2.symm)
      have hhead2 : text.head? = mid2.head? := by
        rw [g1]
        cases mid2 with
        | nil => exact absurd rfl hmid2ne
        | cons a l => rfl
      constructor
      · rw [hhead2]; exact g3
      · rw [he1, he2]; exact g4

theorem wordSearch_iff (pat : List Char) (hne : pat ≠ []) :
    ∀ (text : List Char) (prev : Option Char),
      wordSearch pat prev text = true ↔
        ∃ pre mid post, text = pre ++ (mid ++ post)
          ∧ mid.map Char.toLower = pat.map Char.toLower
          ∧ isWordOpt (lastOr pre prev) ≠ isWordOpt mid.head?
          ∧ isWordOpt (lastOr mid (lastOr pre prev)) ≠ isWordOpt post.head? := by
  intro text
  induction text with
  | nil =>
    intro prev
    constructor
    · intro h
      rw [show wordSearch pat prev [] = wordMatchHere pat prev [] from rfl] at h
      obtain ⟨mid, rest, h1, h2, _, _⟩ := (wordMatchHere_iff pat hne prev []).mp h
      have hm : mid = [] := by
        cases mid with
        | nil => rfl
        | cons a l => exact absurd h1.symm (by simp)
      rw [hm] at h2
      exact absurd h2.symm (by simpa using hne)
    · rintro ⟨pre, mid, post, h1, h2, _, _⟩
      have hm : mid = [] := by
        cases pre with
        | nil =>
          cases mid with
          | nil => rfl
          | cons a l => exact absurd h1.symm (by simp)
        | cons a l => exact absurd h1.symm (by simp)
      rw [hm] at h2
      exact absurd h2.symm (by simpa using hne)
  | cons c cs ih =>
    intro prev
    rw [show wordSearch pat prev (c :: cs)
          = (wordMatchHere pat prev (c :: cs) || wordSearch pat (some c) cs) from rfl]
    rw [Bool.or_eq_true]
    constructor
    · rintro (h | h)
      · obtain ⟨mid, rest, h1, h2, h3, h4⟩ := (wordMatchHere_iff pat hne prev (c :: cs)).mp h
        exact ⟨[], mid, rest, by simpa using h1, h2, h3, h4⟩
      · obtain ⟨pre, mid, post, h1, h2, h3, h4⟩ := (ih (some c)).mp h
        refine ⟨c :: pre, mid, post, by rw [h1]; rfl, h2, ?_, ?_⟩
        · rw [lastOr_cons]; exact h3
        · rw [lastOr_cons]; exact h4
    · rintro ⟨pre, mid, post, h1, h2, h3, h4⟩
      cases pre with
      | nil =>
        left
        apply (wordMatchHere_iff pat hne prev (c :: cs)).mpr
        exact ⟨mid, post, by simpa using h1, h2, h3, h4⟩
      | cons c0 pre1 =>
        right
        have hc0 : c0 = c ∧ cs = pre1 ++ (mid ++ post) := by
          have := h1.symm
          simp only [List.cons_append, List.cons.injEq] at this
          exact ⟨this.1, this.2.symm⟩
        apply (ih (some c)).mpr
        refine ⟨pre1, mid, post, hc0.2, h2, ?_, ?_⟩
        · rw [← hc0.1, ← lastOr_cons]; exact h3
        · rw [← hc0.1, ← lastOr_cons]; exact h4

/-- Claim C4, counterexample.  The matcher pattern brackets the claim number
with regex word boundaries, and the underscore is a word character although it
is not alphanumeric: in the text a1_b the identifier A1 occurs bounded by
non-alphanumeric neighbours (start of string and an underscore), so the
claimed iff demands a match, yet _find_matching_claim returns none. -/
theorem C4_counterexample_underscore_boundary :
    spec_token_occurs "A1" "a1_b" = true
    ∧ find_matching_claim "a1_b" [("A1", some "d")] = none := by
  decide

/-- Claim C4, amended.  For every text and registry snapshot whose claim
numbers are non-empty, the matcher returns a record iff some claim's number
occurs in the text as a case-insensitive match bounded on both sides by regex
word boundaries, whose word characters are the alphanumerics and the
underscore (not the non-alphanumeric boundaries the claim states); in
particular an identifier occurring only inside a longer alphanumeric token is
never matched. -/
theorem C4_word_boundary_match_iff (text : String)
    (claims : List (String × Option String)) (hne : ∀ r ∈ claims, r.1 ≠ "") :
    (find_matching_claim text claims).isSome = true ↔
      ∃ r ∈ claims, ∃ pre mid post,
        text.toList = pre ++ (mid ++ post)
        ∧ mid.map Char.toLower = r.1.toList.map Char.toLower
        ∧ isWordOpt pre.getLast? ≠ isWordOpt mid.head?
        ∧ isWordOpt mid.getLast? ≠ isWordOpt post.head? := by
  unfold find_matching_claim
  rw [List.find?_isSome]
  constructor
  · rintro ⟨r, hr, hp⟩
    have hpat : r.1.toList ≠ [] := strToList_ne_nil r.1 (hne r hr)
    obtain ⟨pre, mid, post, h1, h2, h3, h4⟩ :=
      (wordSearch_iff r.1.toList hpat text.toList none).mp hp
    have hmidne : mid ≠ [] := by
      intro h0
      rw [h0] at h2
      exact hpat (by simpa using h2.symm)
    refine ⟨r, hr, pre, mid, post, h1, h2, ?_, ?_⟩
    · rw [← lastOr_none pre]; exact h3
    · rw [← lastOr_ne_nil mid (lastOr pre none) hmidne]; exact h4
  · rintro ⟨r, hr, pre, mid, post, h1, h2, h3, h4⟩
    have hpat : r.1.toList ≠ [] := strToList_ne_nil r.1 (hne r hr)
    have hmidne : mid ≠ [] := by
      intro h0
      rw [h0] at h2
      exact hpat (by simpa using h2.symm)
    refine ⟨r, hr, ?_⟩
    apply (wordSearch_iff r.1.toList hpat text.toList none).mpr
    refine ⟨pre, mid, post, h1, h2, ?_, ?_⟩
    · rw [lastOr_none pre]; exact h3
    · rw [lastOr_ne_nil mid (lastOr pre none) hmidne]; exact h4

/-- Witness for the amended claim C4 at a concrete text and one-row
registry. -/
theorem C4_word_boundary_match_iff_witness :
    (find_matching_claim "x a1 y" [("A1", some "d")]).isSome = true := by
  apply (C4_word_boundary_match_iff "x a1 y" [("A1", some "d")]
    (by intro r hr; simp at hr; rw [hr]; decide)).mpr
  refine ⟨("A1", some "d"), by simp, ['x', ' '], ['a', '1'], [' ', 'y'], ?_, ?_, ?_, ?_⟩
  · decide
  · decide
  · decide
  · decide

/-- Claim C5, counterexample.  The text below contains the phrase of the claim
in lowercase, yet the extractor returns the token 77 captured at the earlier
anchor occurrence, because re.search keeps only the leftmost match; the
claimed universal return of AB123 over all surrounding text is false. -/
theorem C5_counterexample_earlier_match :
    containsSub (String.toList "claim #: ab123")
        ((String.toList "claim 77 claim #: ab123").map Char.toLower) = true
    ∧ extract_potential_claim_number "claim 77 claim #: ab123" = some "77"
    ∧ ¬ extract_potential_claim_number "claim 77 claim #: ab123" = some "AB123" := by
  decide

theorem tryAnchor_eq_none (cs : List Char) (h : lstartsWith anchorChars cs = false) :
    tryAnchor cs = none := by
  unfold tryAnchor
  rw [h]
  rfl

theorem searchClaimPattern_cons (c : Char) (rest : List Char) :
    searchClaimPattern (c :: rest)
      = match tryAnchor (c :: rest) with
        | some g => some g
        | none => searchClaimPattern rest := rfl

theorem searchClaimPattern_append (p t : List Char)
    (h : ∀ p1 c p2, p = p1 ++ c :: p2 →
      lstartsWith anchorChars (c :: (p2 ++ t)) = false) :
    searchClaimPattern (p ++ t) = searchClaimPattern t := by
  induction p with
  | nil => rfl
  | cons c p1 ih =>
    have h0 : lstartsWith anchorChars (c :: (p1 ++ t)) = false := h [] c p1 rfl
    have hstep : searchClaimPattern ((c :: p1) ++ t) = searchClaimPattern (p1 ++ t) := by
      show searchClaimPattern (c :: (p1 ++ t)) = _
      rw [searchClaimPattern_cons, tryAnchor_eq_none _ h0]
    rw [hstep]
    exact ih (fun p1A cA p2A hp => h (c :: p1A) cA p2A (by rw [hp]; rfl))

theorem captureRun (s : List Char) (h3 : s.takeWhile isTokChar = []) :
    List.takeWhile isTokChar ('b' :: '1' :: '2' :: '3' :: s) = ['b', '1', '2', '3'] := by
  rw [List.takeWhile_cons, if_pos (by decide), List.takeWhile_cons, if_pos (by decide),
    List.takeWhile_cons, if_pos (by decide), List.takeWhile_cons, if_pos (by decide), h3]

theorem tryAnchor_phraseAB (s : List Char) (h3 : s.takeWhile isTokChar = []) :
    tryAnchor (phraseAB ++ s) = some ['a', 'b', '1', '2', '3'] := by
  have hrun := captureRun s h3
  show (if (List.takeWhile isTokChar ('b' :: '1' :: '2' :: '3' :: s)).any Char.isDigit = true
        then some ('a' :: List.takeWhile isTokChar ('b' :: '1' :: '2' :: '3' :: s)) else none)
      = some ['a', 'b', '1', '2', '3']
  rw [hrun]
  decide

/-- Claim C5, amended.  The extractor returns AB123 on a text containing the
phrase whenever the occurrence is the leftmost opportunity for the pattern and
is not extended on the right: if the lowercased text splits as a prefix, the
phrase, and a suffix, where no position of the prefix starts with the anchor
keyword and the suffix does not begin with an alphanumeric-or-hyphen token
character, then the extractor returns AB123.  The counterexample shows the
original universal claim over all surrounding text fails on both counts. -/
theorem C5_first_anchor_extraction (text : String) (p s : List Char)
    (h1 : text.toList.map Char.toLower = p ++ (phraseAB ++ s))
    (h2 : ∀ p1 c p2, p = p1 ++ c :: p2 →
      lstartsWith anchorChars (c :: (p2 ++ (phraseAB ++ s))) = false)
    (h3 : s.takeWhile isTokChar = []) :
    extract_potential_claim_number text = some "AB123" := by
  unfold extract_potential_claim_number
  rw [h1, searchClaimPattern_append p (phraseAB ++ s) h2]
  have hs : searchClaimPattern (phraseAB ++ s) = some ['a', 'b', '1', '2', '3'] := by
    show (match tryAnchor (phraseAB ++ s) with
          | some g => some g
          | none => searchClaimPattern
              (['l', 'a', 'i', 'm', ' ', '#', ':', ' ', 'a', 'b', '1', '2', '3'] ++ s))
        = some ['a', 'b', '1', '2', '3']
    rw [tryAnchor_phraseAB s h3]
  rw [hs]
  decide

/-- Witness for the amended claim C5 at the phrase standing alone with mixed
letter case. -/
theorem C5_first_anchor_extraction_witness :
    (String.toList "Claim #: AB123").map Char.toLower = [] ++ (phraseAB ++ [])
    ∧ extract_potential_claim_number "Claim #: AB123" = some "AB123" := by
  refine ⟨by decide, ?_⟩
  exact C5_first_anchor_extraction "Claim #: AB123" [] []
    (by decide)
    (by intro p1 c p2 hp; exact absurd hp (by simp))
    rfl

/-- Claim C6, counterexample.  The text contains an anchor phrase followed by
the digit-free token abcdef, but a later anchor occurrence carries the
digit-bearing token x1, so the extractor returns X1 rather than none: the
claimed universal none over every text containing some digit-free anchored
token is false. -/
theorem C6_counterexample_later_digit_token :
    containsSub (String.toList "claim: abcdef")
        ((String.toList "claim: abcdef claim: x1").map Char.toLower) = true
    ∧ extract_potential_claim_number "claim: abcdef claim: x1" = some "X1"
    ∧ ¬ extract_potential_claim_number "claim: abcdef claim: x1" = none := by
  decide

/-- Claim C6, amended.  Every identifier the extractor returns contains at
least one digit, and on a text whose only anchored token is digit-free, such
as the claim scenario, the extractor returns none. -/
theorem C6_returned_token_has_digit :
    (∀ (text r : String), extract_potential_claim_number text = some r →
        r.toList.any Char.isDigit = true)
    ∧ extract_potential_claim_number "claim: ABCDEF" = none := by
  constructor
  · intro text r h
    unfold extract_potential_claim_number at h
    cases hs : searchClaimPattern (text.toList.map Char.toLower) with
    | none => rw [hs] at h; exact absurd h (by simp)
    | some g =>
      simp only [hs] at h
      by_cases hd : (g.map Char.toUpper).any Char.isDigit = true
      · rw [if_pos hd] at h
        cases h
        exact hd
      · rw [if_neg hd] at h
        exact absurd h (by simp)
  · decide

/-- Witness for the amended claim C6 at a concrete text with a digit-bearing
token. -/
theorem C6_returned_token_has_digit_witness :
    extract_potential_claim_number "claim: x1" = some "X1"
    ∧ ("X1".toList.any Char.isDigit = true) := by
  refine ⟨by decide, ?_⟩
  exact C6_returned_token_has_digit.1 "claim: x1" "X1" (by decide)

theorem wait_ready_stable (sizes : Nat → Nat) (timeout t : Nat)
    (ht : ¬ timeout < t) (h : sizes t = sizes (t + 1)) :
    wait_for_file_ready sizes timeout t = .ok (t + 1) := by
  unfold wait_for_file_ready
  rw [if_neg ht, if_pos h]

theorem wait_ready_timeout_aux (sizes : Nat → Nat) (timeout : Nat) :
    ∀ k t, timeout + 1 - t ≤ k →
      (∀ u, t ≤ u → u ≤ timeout → sizes u ≠ sizes (u + 1)) →
      wait_for_file_ready sizes timeout t
        = .error (.timeoutError "Timeout waiting for file to be ready") := by
  intro k
  induction k with
  | zero =>
    intro t hk _
    have ht : timeout < t := by omega
    unfold wait_for_file_ready
    rw [if_pos ht]
  | succ k ih =>
    intro t hk hu
    by_cases ht : timeout < t
    · unfold wait_for_file_ready
      rw [if_pos ht]
    · have hne : sizes t ≠ sizes (t + 1) := hu t le_rfl (by omega)
      unfold wait_for_file_ready
      rw [if_neg ht, if_neg hne]
      exact ih (t + 1) (by omega) (fun u h1 h2 => hu u (by omega) h2)

theorem wait_ready_step (sizes : Nat → Nat) (timeout t : Nat)
    (ht : ¬ timeout < t) (hs : ¬ sizes t = sizes (t + 1)) :
    wait_for_file_ready sizes timeout t = wait_for_file_ready sizes timeout (t + 1) := by
  conv_lhs => unfold wait_for_file_ready
  rw [if_neg ht, if_neg hs]

theorem wait_ready_bound_aux (sizes : Nat → Nat) (timeout : Nat) :
    ∀ k t, timeout + 1 - t ≤ k →
      (∃ u, u ≤ timeout + 1 ∧ wait_for_file_ready sizes timeout t = .ok u)
      ∨ wait_for_file_ready sizes timeout t
          = .error (.timeoutError "Timeout waiting for file to be ready") := by
  intro k
  induction k with
  | zero =>
    intro t hk
    have ht : timeout < t := by omega
    right
    unfold wait_for_file_ready
    rw [if_pos ht]
  | succ k ih =>
    intro t hk
    by_cases ht : timeout < t
    · right
      unfold wait_for_file_ready
      rw [if_pos ht]
    · by_cases hs : sizes t = sizes (t + 1)
      · exact Or.inl ⟨t + 1, by omega, wait_ready_stable sizes timeout t ht hs⟩
      · rw [wait_ready_step sizes timeout t ht hs]
        exact ih (t + 1) (by omega)

/-- Claim C9.  The stability wait samples the file size at consecutive whole
seconds: when the first two samples agree it returns at once after a single
one-second sleep; when no two consecutive samples within the 60-second budget
agree it raises TimeoutError, and in every case it either returns a time of at
most 61 seconds or raises; the TimeoutError is not a ValueError or an
OCRError, so process_single_file routes the file into the processing_failed
quarantine bucket. -/
theorem C9_stability_wait_behaviour :
    (∀ sizes : Nat → Nat, sizes 0 = sizes 1 →
        wait_for_file_ready sizes 60 0 = .ok 1)
    ∧ (∀ sizes : Nat → Nat, (∀ t, t ≤ 60 → sizes t ≠ sizes (t + 1)) →
        wait_for_file_ready sizes 60 0
          = .error (.timeoutError "Timeout waiting for file to be ready"))
    ∧ (∀ sizes : Nat → Nat,
        (∃ u, u ≤ 61 ∧ wait_for_file_ready sizes 60 0 = .ok u)
        ∨ wait_for_file_ready sizes 60 0
            = .error (.timeoutError "Timeout waiting for file to be ready"))
    ∧ (∀ (cfg : DirConfig) (ts m : String) (st : SysState) (p : PFile)
        (ocr : PFile → Except PyExc String) (n : Nat),
        fsSize st.fs p.render = some n →
        process_single_file (.error (.timeoutError m)) ocr cfg ts st p
          = ⟨st.db, (failedBucketPath cfg "processing" p ts, n)
              :: st.fs.filter (fun e => !(e.1 == p.render))⟩) := by
  refine ⟨?_, ?_, ?_, ?_⟩
  · intro sizes h
    exact wait_ready_stable sizes 60 0 (by omega) h
  · intro sizes h
    exact wait_ready_timeout_aux sizes 60 61 0 (by omega) (fun u _ h2 => h u h2)
  · intro sizes
    exact wait_ready_bound_aux sizes 60 61 0 (by omega)
  · intro cfg ts m st p ocr n hfs
    simp only [process_single_file, exc_bucket, move_to_failed, move_to_failed_attempt,
      fsMove, hfs]

/-- Witness for claim C9 at concrete size samples: a constant size returns at
time one, a strictly growing size times out, and a concrete timed-out file is
quarantined under processing_failed. -/
theorem C9_stability_wait_behaviour_witness :
    ((fun _ => 5 : Nat → Nat) 0 = (fun _ => 5 : Nat → Nat) 1
      ∧ wait_for_file_ready (fun _ => 5) 60 0 = .ok 1)
    ∧ wait_for_file_ready (fun t => t) 60 0
        = .error (.timeoutError "Timeout waiting for file to be ready")
    ∧ process_single_file (.error (.timeoutError "m")) (fun _ => .ok "x")
        ⟨"processed", "failedroot"⟩ "20250101_000000" ⟨⟨[], []⟩, [("in/f.pdf", 5)]⟩
        ⟨"in", "f", ".pdf"⟩
      = ⟨⟨[], []⟩, [("failedroot/processing_failed/f_20250101_000000.pdf", 5)]⟩ := by
  refine ⟨⟨rfl, C9_stability_wait_behaviour.1 (fun _ => 5) rfl⟩, ?_, ?_⟩
  · exact C9_stability_wait_behaviour.2.1 (fun t => t) (fun t _ => by show t ≠ t + 1; omega)
  · have h := C9_stability_wait_behaviour.2.2.2 ⟨"processed", "failedroot"⟩
      "20250101_000000" "m" ⟨⟨[], []⟩, [("in/f.pdf", 5)]⟩ ⟨"in", "f", ".pdf"⟩
      (fun _ => .ok "x") 5 (by decide)
    exact h.trans (by decide)

/-- Claim C10.  DocumentHandler.move_to_failed never propagates an exception:
when the quarantine move itself succeeds the new file system is returned, and
when it fails the exception is swallowed and the function returns the
unchanged file system, so the file remains at its original path and the
per-file loop continues. -/
theorem C10_move_to_failed_never_raises (cfg : DirConfig) (fs : FS) (p : PFile)
    (etype ts : String) :
    (∃ fs1, move_to_failed_attempt cfg fs p etype ts = .ok fs1
       ∧ move_to_failed cfg fs p etype ts = fs1)
    ∨ (∃ e, move_to_failed_attempt cfg fs p etype ts = .error e
       ∧ move_to_failed cfg fs p etype ts = fs
       ∧ fsSize (move_to_failed cfg fs p etype ts) p.render = fsSize fs p.render) := by
  cases h : move_to_failed_attempt cfg fs p etype ts with
  | ok fs1 => exact Or.inl ⟨fs1, rfl, by unfold move_to_failed; rw [h]⟩
  | error e =>
    have hm : move_to_failed cfg fs p etype ts = fs := by
      unfold move_to_failed; rw [h]
    exact Or.inr ⟨e, rfl, hm, by rw [hm]⟩

end ClaimDoc
